import Mathlib

/-!
Shallow embedding of the FB Messenger backend data-access layer:
`app/models/cassandra_models.py` over the schema created by
`scripts/setup_db.py`, with query execution as in `app/db/cassandra_client.py`.

The three Cassandra tables are modelled as lists of rows inside a `DB` state.
A partition `SELECT` is modelled as filtering the table and sorting by the
table's declared clustering order (which Cassandra maintains physically), an
`INSERT` as an upsert on the table's primary key.  The non-deterministic
inputs of the Python code (`uuid.uuid4()` and `datetime.now()`) are passed in
as explicit parameters; timestamps and ids are natural numbers.
-/

namespace Messenger

/-- Row of `messages_by_conversation`
(primary key `((conversation_id), message_timestamp, message_id)`,
clustering `(message_timestamp DESC, message_id ASC)`). -/
structure MsgRow where
  conversation_id : Nat
  message_timestamp : Nat
  message_id : Nat
  sender_id : Nat
  receiver_id : Nat
  content : String
deriving Repr, DecidableEq

/-- Row of `conversations_by_user`
(primary key `((user_id), last_message_timestamp, conversation_id)`,
clustering `(last_message_timestamp DESC, conversation_id ASC)`). -/
structure ConvByUserRow where
  user_id : Nat
  last_message_timestamp : Nat
  conversation_id : Nat
  other_user_id : Nat
  last_message_content : Option String
deriving Repr, DecidableEq

/-- Row of `conversation_participants` (primary key `(conversation_id)`). -/
structure ParticipantRow where
  conversation_id : Nat
  user1_id : Nat
  user2_id : Nat
  created_at : Nat
deriving Repr, DecidableEq

/-- The Cassandra keyspace: the three denormalized tables. -/
structure DB where
  messages_by_conversation : List MsgRow
  conversations_by_user : List ConvByUserRow
  conversation_participants : List ParticipantRow
deriving Repr, DecidableEq

/-- Primary-key equality for `messages_by_conversation`. -/
def MsgRow.samePK (a b : MsgRow) : Bool :=
  a.conversation_id == b.conversation_id && a.message_timestamp == b.message_timestamp &&
    a.message_id == b.message_id

/-- Primary-key equality for `conversations_by_user`. -/
def ConvByUserRow.samePK (a b : ConvByUserRow) : Bool :=
  a.user_id == b.user_id && a.last_message_timestamp == b.last_message_timestamp &&
    a.conversation_id == b.conversation_id

/-- Primary-key equality for `conversation_participants`. -/
def ParticipantRow.samePK (a b : ParticipantRow) : Bool :=
  a.conversation_id == b.conversation_id

/-- Cassandra `INSERT` into `messages_by_conversation`: upsert on the primary key. -/
def insertMsg (r : MsgRow) (t : List MsgRow) : List MsgRow :=
  r :: t.filter (fun x => !(MsgRow.samePK x r))

/-- Cassandra `INSERT` into `conversations_by_user`: upsert on the primary key. -/
def insertConv (r : ConvByUserRow) (t : List ConvByUserRow) : List ConvByUserRow :=
  r :: t.filter (fun x => !(ConvByUserRow.samePK x r))

/-- Cassandra `INSERT` into `conversation_participants`: upsert on the primary key. -/
def insertParticipant (r : ParticipantRow) (t : List ParticipantRow) : List ParticipantRow :=
  r :: t.filter (fun x => !(ParticipantRow.samePK x r))

/-- Clustering order of `messages_by_conversation`:
`message_timestamp DESC, message_id ASC`. -/
def msgClusterLE (a b : MsgRow) : Prop :=
  b.message_timestamp < a.message_timestamp ∨
    (a.message_timestamp = b.message_timestamp ∧ a.message_id ≤ b.message_id)

instance : DecidableRel msgClusterLE := fun a b =>
  inferInstanceAs (Decidable (_ ∨ _ ∧ _))

instance : IsTotal MsgRow msgClusterLE :=
  ⟨fun a b => by unfold msgClusterLE; omega⟩

instance : IsTrans MsgRow msgClusterLE :=
  ⟨fun a b c hab hbc => by unfold msgClusterLE at hab hbc ⊢; omega⟩

/-- Clustering order of `conversations_by_user`:
`last_message_timestamp DESC, conversation_id ASC`. -/
def convClusterLE (a b : ConvByUserRow) : Prop :=
  b.last_message_timestamp < a.last_message_timestamp ∨
    (a.last_message_timestamp = b.last_message_timestamp ∧ a.conversation_id ≤ b.conversation_id)

instance : DecidableRel convClusterLE := fun a b =>
  inferInstanceAs (Decidable (_ ∨ _ ∧ _))

instance : IsTotal ConvByUserRow convClusterLE :=
  ⟨fun a b => by unfold convClusterLE; omega⟩

instance : IsTrans ConvByUserRow convClusterLE :=
  ⟨fun a b c hab hbc => by unfold convClusterLE at hab hbc ⊢; omega⟩

/-- `SELECT ... FROM messages_by_conversation WHERE conversation_id = %s` with no
limit: the partition in clustering order. -/
def msgPartition (db : DB) (conversation_id : Nat) : List MsgRow :=
  (db.messages_by_conversation.filter
      (fun r => r.conversation_id == conversation_id)).insertionSort msgClusterLE

/-- The same `SELECT` with `LIMIT lim`. -/
def selectMessages (db : DB) (conversation_id lim : Nat) : List MsgRow :=
  (msgPartition db conversation_id).take lim

/-- `SELECT ... FROM conversations_by_user WHERE user_id = %s` with no limit:
the partition in clustering order. -/
def convPartition (db : DB) (user_id : Nat) : List ConvByUserRow :=
  (db.conversations_by_user.filter (fun r => r.user_id == user_id)).insertionSort convClusterLE

/-- `SELECT ... FROM conversation_participants WHERE conversation_id = %s`
(single-row table: no clustering columns). -/
def participantsLookup (db : DB) (conversation_id : Nat) : List ParticipantRow :=
  db.conversation_participants.filter (fun r => r.conversation_id == conversation_id)

/-- The mapping returned by `MessageModel.create_message` and produced for each
row by the two paginated message reads. -/
structure MessageRecord where
  id : Nat
  conversation_id : Nat
  sender_id : Nat
  receiver_id : Nat
  content : String
  created_at : Nat
deriving Repr, DecidableEq

/-- The `{total, page, limit, data}` mapping of the paginated message reads. -/
structure PagedMessages where
  total : Nat
  page : Nat
  limit : Nat
  data : List MessageRecord
deriving Repr, DecidableEq

/-- The conversation view assembled by `ConversationModel`. -/
structure ConversationRecord where
  id : Nat
  user1_id : Nat
  user2_id : Nat
  last_message_at : Nat
  last_message_content : Option String
deriving Repr, DecidableEq

/-- The `{total, page, limit, data}` mapping of `get_user_conversations`. -/
structure PagedConversations where
  total : Nat
  page : Nat
  limit : Nat
  data : List ConversationRecord
deriving Repr, DecidableEq

/-- Row-to-mapping conversion done in the message read loops. -/
def msgRowToRecord (r : MsgRow) : MessageRecord :=
  { id := r.message_id, conversation_id := r.conversation_id, sender_id := r.sender_id,
    receiver_id := r.receiver_id, content := r.content, created_at := r.message_timestamp }

/-- `MessageModel.create_message`: one insert into `messages_by_conversation`,
then one insert into `conversations_by_user` keyed by the sender, then one
keyed by the receiver.  `message_id` and `message_timestamp` stand for the
freshly generated `uuid.uuid4()` and `datetime.now()`. -/
def create_message (message_id message_timestamp sender_id receiver_id : Nat)
    (content : String) (conversation_id : Nat) (db : DB) : MessageRecord × DB :=
  let msgRow : MsgRow :=
    { conversation_id := conversation_id, message_timestamp := message_timestamp,
      message_id := message_id, sender_id := sender_id, receiver_id := receiver_id,
      content := content }
  let senderRow : ConvByUserRow :=
    { user_id := sender_id, last_message_timestamp := message_timestamp,
      conversation_id := conversation_id, other_user_id := receiver_id,
      last_message_content := some content }
  let receiverRow : ConvByUserRow :=
    { user_id := receiver_id, last_message_timestamp := message_timestamp,
      conversation_id := conversation_id, other_user_id := sender_id,
      last_message_content := some content }
  let db1 : DB :=
    { db with messages_by_conversation := insertMsg msgRow db.messages_by_conversation }
  let db2 : DB :=
    { db1 with conversations_by_user := insertConv senderRow db1.conversations_by_user }
  let db3 : DB :=
    { db2 with conversations_by_user := insertConv receiverRow db2.conversations_by_user }
  ({ id := message_id, conversation_id := conversation_id, sender_id := sender_id,
     receiver_id := receiver_id, content := content, created_at := message_timestamp }, db3)

/-- `MessageModel.get_conversation_messages`: fetch `page * limit` rows of the
partition in clustering order, then slice `[(page-1)*limit, page*limit)`. -/
def get_conversation_messages (db : DB) (conversation_id : Nat) (page limit : Nat) :
    PagedMessages :=
  let fetch_limit := page * limit
  let rows := selectMessages db conversation_id fetch_limit
  let messages := rows.map msgRowToRecord
  let start_idx := (page - 1) * limit
  let paged_messages := (messages.drop start_idx).take limit
  { total := messages.length, page := page, limit := limit, data := paged_messages }

/-- The filter of the timestamp-bounded read: rows of the partition with
`message_timestamp < before_timestamp`. -/
def msgsBefore (db : DB) (conversation_id before_timestamp : Nat) : List MsgRow :=
  db.messages_by_conversation.filter
    (fun r => r.conversation_id == conversation_id &&
      decide (r.message_timestamp < before_timestamp))

/-- `MessageModel.get_messages_before_timestamp`: same fetch-then-slice strategy
over the filtered partition, but `total` comes from a separate
`SELECT COUNT(*)` over the same filter. -/
def get_messages_before_timestamp (db : DB)
    (conversation_id before_timestamp page limit : Nat) : PagedMessages :=
  let fetch_limit := page * limit
  let rows :=
    ((msgsBefore db conversation_id before_timestamp).insertionSort msgClusterLE).take fetch_limit
  let messages := rows.map msgRowToRecord
  let start_idx := (page - 1) * limit
  let paged_messages := (messages.drop start_idx).take limit
  let count_result := [(msgsBefore db conversation_id before_timestamp).length]
  let total :=
    match count_result with
    | [] => 0
    | c :: _ => c
  { total := total, page := page, limit := limit, data := paged_messages }

/-- The `for row in rows` loop of `get_user_conversations`: look up the
participants row of each summary row and keep the resolved conversations,
skipping summary rows whose lookup comes back empty. -/
def resolveConversations (db : DB) : List ConvByUserRow → List ConversationRecord
  | [] => []
  | row :: rest =>
    match participantsLookup db row.conversation_id with
    | [] => resolveConversations db rest
    | participant :: _ =>
      { id := row.conversation_id, user1_id := participant.user1_id,
        user2_id := participant.user2_id, last_message_at := row.last_message_timestamp,
        last_message_content := row.last_message_content } :: resolveConversations db rest

/-- `ConversationModel.get_user_conversations`: fetch `page * limit` summary
rows, resolve each against `conversation_participants`, then slice. -/
def get_user_conversations (db : DB) (user_id page limit : Nat) : PagedConversations :=
  let fetch_limit := page * limit
  let rows := (convPartition db user_id).take fetch_limit
  let conversations := resolveConversations db rows
  let start_idx := (page - 1) * limit
  let paged_conversations := (conversations.drop start_idx).take limit
  { total := conversations.length, page := page, limit := limit,
    data := paged_conversations }

/-- `ConversationModel.get_conversation`: `none` when no participants row
exists; otherwise the participants row, with last-message fields taken from
the newest `messages_by_conversation` row (`LIMIT 1`) when there is one and
from `created_at` / null otherwise. -/
def get_conversation (db : DB) (conversation_id : Nat) : Option ConversationRecord :=
  match participantsLookup db conversation_id with
  | [] => none
  | conversation :: _ =>
    match selectMessages db conversation_id 1 with
    | [] =>
      some { id := conversation.conversation_id, user1_id := conversation.user1_id,
             user2_id := conversation.user2_id, last_message_at := conversation.created_at,
             last_message_content := none }
    | m :: _ =>
      some { id := conversation.conversation_id, user1_id := conversation.user1_id,
             user2_id := conversation.user2_id, last_message_at := m.message_timestamp,
             last_message_content := some m.content }

/-- One step of the scan loop in `create_or_get_conversation`: a summary row
matches when its participants lookup is non-empty and the first row's pair
equals `(min_user_id, max_user_id)` in either order. -/
def rowMatches (db : DB) (min_user_id max_user_id : Nat) (row : ConvByUserRow) : Bool :=
  match participantsLookup db row.conversation_id with
  | [] => false
  | participant :: _ =>
    (participant.user1_id == min_user_id && participant.user2_id == max_user_id) ||
      (participant.user1_id == max_user_id && participant.user2_id == min_user_id)

/-- The scan loop of `create_or_get_conversation`: the conversation id of the
first matching summary row, if any. -/
def findMatchingConversation (db : DB) (min_user_id max_user_id : Nat)
    (conversations : List ConvByUserRow) : Option Nat :=
  (conversations.find? (rowMatches db min_user_id max_user_id)).map
    (fun r => r.conversation_id)

/-- `ConversationModel.create_or_get_conversation`: canonicalize the pair,
scan the smaller user's `conversations_by_user` partition for an existing
conversation of the pair, and either return it through `get_conversation` or
create a fresh one (participants row in canonical order plus two summary rows
with null last-message content).  `new_conversation_id` and `created_at`
stand for `int(datetime.now().timestamp())` and `datetime.now()`. -/
def create_or_get_conversation (new_conversation_id created_at user1_id user2_id : Nat)
    (db : DB) : Option ConversationRecord × DB :=
  let min_user_id := min user1_id user2_id
  let max_user_id := max user1_id user2_id
  match findMatchingConversation db min_user_id max_user_id (convPartition db min_user_id) with
  | some conversation_id => (get_conversation db conversation_id, db)
  | none =>
    let newParticipant : ParticipantRow :=
      { conversation_id := new_conversation_id, user1_id := min_user_id,
        user2_id := max_user_id, created_at := created_at }
    let minRow : ConvByUserRow :=
      { user_id := min_user_id, last_message_timestamp := created_at,
        conversation_id := new_conversation_id, other_user_id := max_user_id,
        last_message_content := none }
    let maxRow : ConvByUserRow :=
      { user_id := max_user_id, last_message_timestamp := created_at,
        conversation_id := new_conversation_id, other_user_id := min_user_id,
        last_message_content := none }
    let db1 : DB :=
      { db with conversation_participants :=
          insertParticipant newParticipant db.conversation_participants }
    let db2 : DB :=
      { db1 with conversations_by_user := insertConv minRow db1.conversations_by_user }
    let db3 : DB :=
      { db2 with conversations_by_user := insertConv maxRow db2.conversations_by_user }
    (some { id := new_conversation_id, user1_id := min_user_id, user2_id := max_user_id,
            last_message_at := created_at, last_message_content := none }, db3)

/-- Per-row resolution step of `get_user_conversations`, as an `Option`:
`none` exactly when the participants lookup of the summary row returns
nothing (orphaned summary). -/
def resolveRow (db : DB) (row : ConvByUserRow) : Option ConversationRecord :=
  (participantsLookup db row.conversation_id).head?.map
    (fun participant =>
      { id := row.conversation_id, user1_id := participant.user1_id,
        user2_id := participant.user2_id, last_message_at := row.last_message_timestamp,
        last_message_content := row.last_message_content })

/-- Strict clustering order on message rows: later timestamp first, ties by
smaller message id first. -/
def msgRowLT (a b : MsgRow) : Prop :=
  b.message_timestamp < a.message_timestamp ∨
    (a.message_timestamp = b.message_timestamp ∧ a.message_id < b.message_id)

/-- The same strict order on returned message records (`created_at` carries
the row timestamp and `id` the row message id). -/
def msgRecLT (a b : MessageRecord) : Prop :=
  b.created_at < a.created_at ∨ (a.created_at = b.created_at ∧ a.id < b.id)

instance : DecidableRel msgRecLT := fun a b =>
  inferInstanceAs (Decidable (_ ∨ _ ∧ _))

/-- State invariant of `conversation_participants`: every stored pair is in
canonical order.  The only writer of this table, the create branch of
`create_or_get_conversation`, stores `(min, max)`, so every reachable state
satisfies this. -/
def ParticipantsCanonical (db : DB) : Prop :=
  ∀ p ∈ db.conversation_participants, p.user1_id ≤ p.user2_id

/-- The three store writes of `create_message`, in program order. -/
def createMessageWrites (message_id message_timestamp sender_id receiver_id : Nat)
    (content : String) (conversation_id : Nat) : List (DB → DB) :=
  let msgRow : MsgRow :=
    ⟨conversation_id, message_timestamp, message_id, sender_id, receiver_id, content⟩
  let senderRow : ConvByUserRow :=
    ⟨sender_id, message_timestamp, conversation_id, receiver_id, some content⟩
  let receiverRow : ConvByUserRow :=
    ⟨receiver_id, message_timestamp, conversation_id, sender_id, some content⟩
  [fun db => { db with messages_by_conversation := insertMsg msgRow db.messages_by_conversation },
   fun db => { db with conversations_by_user := insertConv senderRow db.conversations_by_user },
   fun db => { db with conversations_by_user := insertConv receiverRow db.conversations_by_user }]

/-- The three store writes of the create branch of
`create_or_get_conversation`, in program order. -/
def createConversationWrites (new_conversation_id created_at user1_id user2_id : Nat) :
    List (DB → DB) :=
  let newParticipant : ParticipantRow :=
    ⟨new_conversation_id, min user1_id user2_id, max user1_id user2_id, created_at⟩
  let minRow : ConvByUserRow :=
    ⟨min user1_id user2_id, created_at, new_conversation_id, max user1_id user2_id, none⟩
  let maxRow : ConvByUserRow :=
    ⟨max user1_id user2_id, created_at, new_conversation_id, min user1_id user2_id, none⟩
  [fun db =>
     { db with conversation_participants :=
         insertParticipant newParticipant db.conversation_participants },
   fun db => { db with conversations_by_user := insertConv minRow db.conversations_by_user },
   fun db => { db with conversations_by_user := insertConv maxRow db.conversations_by_user }]

/-- Apply a sequence of store writes in program order. -/
def applyWrites (ws : List (DB → DB)) (db : DB) : DB :=
  ws.foldl (fun d w => w d) db

/-- `create_message` run against `CassandraClient.execute` with a failure
oracle for its three store writes: `fail k = some e` means the k-th write
raises `e` before taking effect.  The repository has no try/except, so the
error propagates unchanged and the writes already executed stay in place. -/
def create_message_with_failures (fail : Nat → Option String)
    (message_id message_timestamp sender_id receiver_id : Nat) (content : String)
    (conversation_id : Nat) (db : DB) : Except String MessageRecord × DB :=
  let msgRow : MsgRow :=
    ⟨conversation_id, message_timestamp, message_id, sender_id, receiver_id, content⟩
  let senderRow : ConvByUserRow :=
    ⟨sender_id, message_timestamp, conversation_id, receiver_id, some content⟩
  let receiverRow : ConvByUserRow :=
    ⟨receiver_id, message_timestamp, conversation_id, sender_id, some content⟩
  match fail 0 with
  | some e => (Except.error e, db)
  | none =>
    let db1 : DB :=
      { db with messages_by_conversation := insertMsg msgRow db.messages_by_conversation }
    match fail 1 with
    | some e => (Except.error e, db1)
    | none =>
      let db2 : DB :=
        { db1 with conversations_by_user := insertConv senderRow db1.conversations_by_user }
      match fail 2 with
      | some e => (Except.error e, db2)
      | none =>
        let db3 : DB :=
          { db2 with conversations_by_user := insertConv receiverRow db2.conversations_by_user }
        (Except.ok ⟨message_id, conversation_id, sender_id, receiver_id, content,
          message_timestamp⟩, db3)

/-- `create_or_get_conversation` with the same failure oracle for the three
store writes of its create branch (the found branch performs no writes). -/
def create_or_get_conversation_with_failures (fail : Nat → Option String)
    (new_conversation_id created_at user1_id user2_id : Nat) (db : DB) :
    Except String (Option ConversationRecord) × DB :=
  let min_user_id := min user1_id user2_id
  let max_user_id := max user1_id user2_id
  match findMatchingConversation db min_user_id max_user_id (convPartition db min_user_id) with
  | some conversation_id => (Except.ok (get_conversation db conversation_id), db)
  | none =>
    let newParticipant : ParticipantRow :=
      ⟨new_conversation_id, min_user_id, max_user_id, created_at⟩
    let minRow : ConvByUserRow :=
      ⟨min_user_id, created_at, new_conversation_id, max_user_id, none⟩
    let maxRow : ConvByUserRow :=
      ⟨max_user_id, created_at, new_conversation_id, min_user_id, none⟩
    match fail 0 with
    | some e => (Except.error e, db)
    | none =>
      let db1 : DB :=
        { db with conversation_participants :=
            insertParticipant newParticipant db.conversation_participants }
      match fail 1 with
      | some e => (Except.error e, db1)
      | none =>
        let db2 : DB :=
          { db1 with conversations_by_user := insertConv minRow db1.conversations_by_user }
        match fail 2 with
        | some e => (Except.error e, db2)
        | none =>
          let db3 : DB :=
            { db2 with conversations_by_user := insertConv maxRow db2.conversations_by_user }
          (Except.ok (some ⟨new_conversation_id, min_user_id, max_user_id, created_at,
            none⟩), db3)

/-- The state produced by the create branch of `create_or_get_conversation`
on a state `db`, written out: the fresh participants row `⟨n1, m, M, t1⟩` and
the two per-participant summary rows, where `(m, M)` is the canonicalized
pair. -/
def createdState (db : DB) (n1 t1 m M : Nat) : DB :=
  ⟨db.messages_by_conversation,
    insertConv ⟨M, t1, n1, m, none⟩
      (insertConv ⟨m, t1, n1, M, none⟩ db.conversations_by_user),
    insertParticipant ⟨n1, m, M, t1⟩ db.conversation_participants⟩

/-! ### Sample states used by the witnesses -/

/-- Empty keyspace. -/
def dbEmpty : DB := ⟨[], [], []⟩

/-- One conversation (id 100) between users 1 and 2, created at 50, no messages. -/
def dbPair : DB :=
  ⟨[], [⟨1, 50, 100, 2, none⟩, ⟨2, 50, 100, 1, none⟩], [⟨100, 1, 2, 50⟩]⟩

/-- Conversation 100 between users 1 and 2 with three messages, including a
timestamp tie (timestamp 60 is shared by message ids 7 and 5). -/
def dbMsgs : DB :=
  ⟨[⟨100, 60, 7, 1, 2, "a"⟩, ⟨100, 55, 8, 2, 1, "b"⟩, ⟨100, 60, 5, 2, 1, "c"⟩],
   [⟨1, 60, 100, 2, some "a"⟩, ⟨2, 60, 100, 1, some "a"⟩],
   [⟨100, 1, 2, 50⟩]⟩

/-! ### Helper lemmas about upserts and partition reads -/

theorem mem_of_mem_insertMsg {x r : MsgRow} {t : List MsgRow}
    (h : x ∈ insertMsg r t) : x = r ∨ x ∈ t := by
  unfold insertMsg at h
  rcases List.mem_cons.1 h with h | h
  · exact Or.inl h
  · exact Or.inr (List.mem_filter.1 h).1

theorem self_mem_insertMsg (r : MsgRow) (t : List MsgRow) : r ∈ insertMsg r t :=
  List.mem_cons_self _ _

theorem mem_of_mem_insertConv {x r : ConvByUserRow} {t : List ConvByUserRow}
    (h : x ∈ insertConv r t) : x = r ∨ x ∈ t := by
  unfold insertConv at h
  rcases List.mem_cons.1 h with h | h
  · exact Or.inl h
  · exact Or.inr (List.mem_filter.1 h).1

theorem self_mem_insertConv (r : ConvByUserRow) (t : List ConvByUserRow) : r ∈ insertConv r t :=
  List.mem_cons_self _ _

theorem mem_insertConv_of_mem {x : ConvByUserRow} (r : ConvByUserRow) {t : List ConvByUserRow}
    (hx : x ∈ t) (hpk : ConvByUserRow.samePK x r = false) : x ∈ insertConv r t := by
  unfold insertConv
  exact List.mem_cons.2 (Or.inr (List.mem_filter.2 ⟨hx, by simp [hpk]⟩))

theorem participantsLookup_eq (db : DB) (cid : Nat) :
    participantsLookup db cid =
      db.conversation_participants.filter (fun r => r.conversation_id == cid) := rfl

/-- Effect of a participants upsert on a single-conversation lookup. -/
theorem filter_insertParticipant (p : ParticipantRow) (t : List ParticipantRow) (cid : Nat) :
    (insertParticipant p t).filter (fun r => r.conversation_id == cid) =
      if p.conversation_id = cid then [p]
      else t.filter (fun r => r.conversation_id == cid) := by
  unfold insertParticipant
  by_cases h : p.conversation_id = cid
  · rw [if_pos h, List.filter_cons_of_pos (by simpa using h), List.filter_filter]
    have : t.filter (fun a => a.conversation_id == cid && !ParticipantRow.samePK a p) = [] := by
      rw [List.filter_eq_nil_iff]
      intro a _
      by_cases hac : a.conversation_id = cid <;>
        simp [ParticipantRow.samePK, hac, h]
    rw [this]
  · rw [if_neg h, List.filter_cons_of_neg (by simpa using h), List.filter_filter]
    apply List.filter_congr
    intro a _
    by_cases hac : a.conversation_id = cid
    · have hne : ¬ cid = p.conversation_id := fun e => h e.symm
      simp [ParticipantRow.samePK, hac, hne]
    · simp [ParticipantRow.samePK, hac]

theorem mem_convPartition {db : DB} {u : Nat} {x : ConvByUserRow} :
    x ∈ convPartition db u ↔ x ∈ db.conversations_by_user ∧ x.user_id = u := by
  unfold convPartition
  rw [List.mem_insertionSort]
  simp [List.mem_filter]

theorem mem_msgPartition {db : DB} {cid : Nat} {x : MsgRow} :
    x ∈ msgPartition db cid ↔ x ∈ db.messages_by_conversation ∧ x.conversation_id = cid := by
  unfold msgPartition
  rw [List.mem_insertionSort]
  simp [List.mem_filter]

theorem head_participantsLookup {db : DB} {cid : Nat} {p : ParticipantRow}
    {rest : List ParticipantRow} (hl : participantsLookup db cid = p :: rest) :
    p ∈ db.conversation_participants ∧ p.conversation_id = cid := by
  have hp : p ∈ participantsLookup db cid := by
    rw [hl]; exact List.mem_cons_self _ _
  unfold participantsLookup at hp
  have h := List.mem_filter.1 hp
  exact ⟨h.1, by simpa using h.2⟩

theorem get_conversation_eq_some {db : DB} {cid : Nat} {p : ParticipantRow}
    {rest : List ParticipantRow} (hl : participantsLookup db cid = p :: rest) :
    ∃ rec, get_conversation db cid = some rec ∧ rec.id = cid ∧
      rec.user1_id = p.user1_id ∧ rec.user2_id = p.user2_id := by
  have hp := (head_participantsLookup hl).2
  unfold get_conversation
  rw [hl]
  cases hsel : selectMessages db cid 1 with
  | nil => exact ⟨_, rfl, hp, rfl, rfl⟩
  | cons m ms => exact ⟨_, rfl, hp, rfl, rfl⟩

/-! ### Claims C9, C3, C10, C8 -/

/-- C9: `create_message` performs exactly three row writes — the message row
into `messages_by_conversation` and one `conversations_by_user` summary row
per participant (sender keyed with `other_user_id = receiver_id` and vice
versa, both carrying the new message's timestamp and content) — leaves
`conversation_participants` untouched, and returns the record with the fresh
id, the given conversation/sender/receiver/content, and the creation
timestamp. -/
theorem claim_C9 (mid ts s r : Nat) (c : String) (cid : Nat) (db : DB) :
    let res := create_message mid ts s r c cid db
    let msgRow : MsgRow := ⟨cid, ts, mid, s, r, c⟩
    let senderRow : ConvByUserRow := ⟨s, ts, cid, r, some c⟩
    let receiverRow : ConvByUserRow := ⟨r, ts, cid, s, some c⟩
    msgRow ∈ res.2.messages_by_conversation ∧
    (∀ x ∈ res.2.messages_by_conversation, x = msgRow ∨ x ∈ db.messages_by_conversation) ∧
    senderRow ∈ res.2.conversations_by_user ∧
    receiverRow ∈ res.2.conversations_by_user ∧
    (∀ x ∈ res.2.conversations_by_user,
      x = senderRow ∨ x = receiverRow ∨ x ∈ db.conversations_by_user) ∧
    res.2.conversation_participants = db.conversation_participants ∧
    res.1 = ⟨mid, cid, s, r, c, ts⟩ := by
  refine ⟨self_mem_insertMsg _ _, ?_, ?_, self_mem_insertConv _ _, ?_, rfl, rfl⟩
  · exact fun x hx => mem_of_mem_insertMsg hx
  · by_cases hsr : s = r
    · subst hsr
      exact self_mem_insertConv _ _
    · refine mem_insertConv_of_mem _ (self_mem_insertConv _ _) ?_
      simp [ConvByUserRow.samePK, hsr]
  · intro x hx
    rcases mem_of_mem_insertConv hx with h | h
    · exact Or.inr (Or.inl h)
    · rcases mem_of_mem_insertConv h with h | h
      · exact Or.inl h
      · exact Or.inr (Or.inr h)

/-- C3: when the scan of the canonical pair finds no existing conversation,
`create_or_get_conversation` inserts one `conversation_participants` row with
the pair in canonical (min, max) order under the freshly derived id, inserts
one `conversations_by_user` row per participant with null last-message
content, leaves the message table untouched, and returns the new
conversation's view. -/
theorem claim_C3 (n t u1 u2 : Nat) (db : DB)
    (hfind : findMatchingConversation db (min u1 u2) (max u1 u2)
      (convPartition db (min u1 u2)) = none) :
    let res := create_or_get_conversation n t u1 u2 db
    participantsLookup res.2 n = [⟨n, min u1 u2, max u1 u2, t⟩] ∧
    (⟨min u1 u2, t, n, max u1 u2, none⟩ : ConvByUserRow) ∈ res.2.conversations_by_user ∧
    (⟨max u1 u2, t, n, min u1 u2, none⟩ : ConvByUserRow) ∈ res.2.conversations_by_user ∧
    res.2.messages_by_conversation = db.messages_by_conversation ∧
    res.1 = some ⟨n, min u1 u2, max u1 u2, t, none⟩ := by
  simp only [create_or_get_conversation, hfind]
  refine ⟨?_, ?_, self_mem_insertConv _ _, by trivial, by trivial⟩
  · rw [participantsLookup_eq]
    exact (filter_insertParticipant _ _ _).trans (if_pos rfl)
  · by_cases hmM : min u1 u2 = max u1 u2
    · rw [hmM]
      exact self_mem_insertConv _ _
    · refine mem_insertConv_of_mem _ (self_mem_insertConv _ _) ?_
      simp [ConvByUserRow.samePK, hmM]

/-- Witness for C3: in the empty keyspace, `create_or_get_conversation` for
the pair (2, 1) creates conversation 100 with the canonical pair (1, 2). -/
theorem claim_C3_witness :
    findMatchingConversation dbEmpty (min 2 1) (max 2 1)
      (convPartition dbEmpty (min 2 1)) = none ∧
    (let res := create_or_get_conversation 100 5 2 1 dbEmpty
     participantsLookup res.2 100 = [⟨100, min 2 1, max 2 1, 5⟩] ∧
     (⟨min 2 1, 5, 100, max 2 1, none⟩ : ConvByUserRow) ∈ res.2.conversations_by_user ∧
     (⟨max 2 1, 5, 100, min 2 1, none⟩ : ConvByUserRow) ∈ res.2.conversations_by_user ∧
     res.2.messages_by_conversation = dbEmpty.messages_by_conversation ∧
     res.1 = some ⟨100, min 2 1, max 2 1, 5, none⟩) :=
  ⟨by decide, claim_C3 100 5 2 1 dbEmpty (by decide)⟩

/-- C10: `create_or_get_conversation(a, a)` is accepted, and when the scan
finds no conversation for the pair (a, a) it creates one whose stored
participant pair is degenerate: `user1_id = user2_id = a`, which satisfies
`user1_id ≤ user2_id` but violates the strict invariant
`user1_id < user2_id`. -/
theorem claim_C10 (n t a : Nat) (db : DB)
    (hfind : findMatchingConversation db a a (convPartition db a) = none) :
    let res := create_or_get_conversation n t a a db
    res.1 = some ⟨n, a, a, t, none⟩ ∧
    participantsLookup res.2 n = [⟨n, a, a, t⟩] ∧
    ∀ p ∈ participantsLookup res.2 n,
      p.user1_id ≤ p.user2_id ∧ ¬ p.user1_id < p.user2_id := by
  have hmin : min a a = a := Nat.min_self a
  have hmax : max a a = a := Nat.max_self a
  simp only [create_or_get_conversation, hmin, hmax, hfind]
  have hlook : (insertParticipant ⟨n, a, a, t⟩ db.conversation_participants).filter
      (fun r => r.conversation_id == n) = [⟨n, a, a, t⟩] :=
    (filter_insertParticipant _ _ _).trans (if_pos rfl)
  refine ⟨by trivial, hlook, ?_⟩
  intro p hp
  have hp' : p ∈ ([(⟨n, a, a, t⟩ : ParticipantRow)]) := by
    rw [← hlook]
    exact hp
  rcases List.mem_singleton.1 hp' with rfl
  exact ⟨Nat.le_refl _, Nat.lt_irrefl _⟩

/-- Witness for C10: creating the degenerate conversation (3, 3) in the empty
keyspace. -/
theorem claim_C10_witness :
    findMatchingConversation dbEmpty 3 3 (convPartition dbEmpty 3) = none ∧
    (let res := create_or_get_conversation 100 5 3 3 dbEmpty
     res.1 = some ⟨100, 3, 3, 5, none⟩ ∧
     participantsLookup res.2 100 = [⟨100, 3, 3, 5⟩] ∧
     ∀ p ∈ participantsLookup res.2 100,
       p.user1_id ≤ p.user2_id ∧ ¬ p.user1_id < p.user2_id) :=
  ⟨by decide, claim_C10 100 5 3 dbEmpty (by decide)⟩

/-- C8: `get_conversation` signals a missing conversation as `none` rather
than an error; when the conversation exists but its partition has no
messages, the view falls back to `created_at` and null content; when messages
exist, the last-message fields come from the newest message in clustering
order (the head of the partition). -/
theorem claim_C8 (db : DB) (cid : Nat) :
    (participantsLookup db cid = [] → get_conversation db cid = none) ∧
    (∀ p rest, participantsLookup db cid = p :: rest → msgPartition db cid = [] →
      get_conversation db cid =
        some ⟨p.conversation_id, p.user1_id, p.user2_id, p.created_at, none⟩) ∧
    (∀ p rest m mrest, participantsLookup db cid = p :: rest →
      msgPartition db cid = m :: mrest →
      get_conversation db cid =
        some ⟨p.conversation_id, p.user1_id, p.user2_id, m.message_timestamp,
          some m.content⟩) := by
  refine ⟨?_, ?_, ?_⟩
  · intro h
    unfold get_conversation
    rw [h]
  · intro p rest hl hm
    unfold get_conversation
    rw [hl]
    have : selectMessages db cid 1 = [] := by
      unfold selectMessages
      rw [hm]
      rfl
    rw [this]
  · intro p rest m mrest hl hm
    unfold get_conversation
    rw [hl]
    have : selectMessages db cid 1 = [m] := by
      unfold selectMessages
      rw [hm]
      rfl
    rw [this]

/-- Witness for C8: the three branches at concrete states — the empty
keyspace (absent conversation), conversation 100 of `dbPair` (no messages,
falls back to `created_at` 50 and null), and conversation 100 of `dbMsgs`
(newest message in clustering order is id 5 at timestamp 60). -/
theorem claim_C8_witness :
    get_conversation dbEmpty 100 = none ∧
    get_conversation dbPair 100 = some ⟨100, 1, 2, 50, none⟩ ∧
    get_conversation dbMsgs 100 = some ⟨100, 1, 2, 60, some "c"⟩ :=
  ⟨(claim_C8 dbEmpty 100).1 (by decide),
   by
    have h := (claim_C8 dbPair 100).2.1 ⟨100, 1, 2, 50⟩ [] (by decide) (by decide)
    exact h,
   by
    have h := (claim_C8 dbMsgs 100).2.2 ⟨100, 1, 2, 50⟩ [] ⟨100, 60, 5, 2, 1, "c"⟩
      [⟨100, 60, 7, 1, 2, "a"⟩, ⟨100, 55, 8, 2, 1, "b"⟩] (by decide) (by decide)
    exact h⟩

/-! ### Claims C6 and C4 -/

/-- The append loop of `get_user_conversations` is the `filterMap` of the
per-row resolution step. -/
theorem resolveConversations_eq_filterMap (db : DB) (l : List ConvByUserRow) :
    resolveConversations db l = l.filterMap (resolveRow db) := by
  induction l with
  | nil => rfl
  | cons row rest ih =>
    rw [List.filterMap_cons]
    cases hl : participantsLookup db row.conversation_id with
    | nil =>
      have h1 : resolveConversations db (row :: rest) = resolveConversations db rest := by
        simp only [resolveConversations]
        rw [hl]
      have h2 : resolveRow db row = none := by
        unfold resolveRow
        rw [hl]
        rfl
      rw [h1, h2, ih]
    | cons p ps =>
      have h1 : resolveConversations db (row :: rest) =
          ⟨row.conversation_id, p.user1_id, p.user2_id, row.last_message_timestamp,
            row.last_message_content⟩ :: resolveConversations db rest := by
        simp only [resolveConversations]
        rw [hl]
      have h2 : resolveRow db row = some ⟨row.conversation_id, p.user1_id, p.user2_id,
          row.last_message_timestamp, row.last_message_content⟩ := by
        unfold resolveRow
        rw [hl]
        rfl
      rw [h1, h2, ih]

/-- C6: `get_user_conversations` fetches at most `page * limit` summary rows
of the user's partition, drops exactly the rows whose participants lookup
returns nothing, reports `total` as the count of the resolved conversations
(hence capped by the fetch bound, not the true row count), and returns the
page window `[(page-1)*limit, page*limit)` of the resolved list. -/
theorem claim_C6 (db : DB) (uid page limit : Nat) :
    let res := get_user_conversations db uid page limit
    let fetched := (convPartition db uid).take (page * limit)
    let resolved := fetched.filterMap (resolveRow db)
    (∀ row ∈ fetched, participantsLookup db row.conversation_id = [] →
      resolveRow db row = none) ∧
    res.data = (resolved.drop ((page - 1) * limit)).take limit ∧
    res.total = resolved.length ∧
    res.total ≤ page * limit ∧
    fetched.length ≤ page * limit := by
  refine ⟨?_, ?_, ?_, ?_, ?_⟩
  · intro row _ h
    unfold resolveRow
    rw [h]
    rfl
  · show ((resolveConversations db _).drop _).take _ = _
    rw [resolveConversations_eq_filterMap]
  · show (resolveConversations db _).length = _
    rw [resolveConversations_eq_filterMap]
  · show (resolveConversations db _).length ≤ _
    rw [resolveConversations_eq_filterMap]
    refine le_trans (List.length_filterMap_le _ _) ?_
    rw [List.length_take]
    omega
  · rw [List.length_take]
    omega

/-- Witness for C6: user 1 in `dbMsgs` with page 1, limit 20. -/
theorem claim_C6_witness :
    (let res := get_user_conversations dbMsgs 1 1 20
     let fetched := (convPartition dbMsgs 1).take (1 * 20)
     let resolved := fetched.filterMap (resolveRow dbMsgs)
     (∀ row ∈ fetched, participantsLookup dbMsgs row.conversation_id = [] →
       resolveRow dbMsgs row = none) ∧
     res.data = (resolved.drop ((1 - 1) * 20)).take 20 ∧
     res.total = resolved.length ∧
     res.total ≤ 1 * 20 ∧
     fetched.length ≤ 1 * 20) :=
  claim_C6 dbMsgs 1 1 20

/-- C4: every message returned by `get_messages_before_timestamp` has a
timestamp strictly below the bound, and its `total` is the exact count of
all partition rows passing the filter (computed by the separate count query),
not the capped fetched-row count used by `get_conversation_messages`. -/
theorem claim_C4 (db : DB) (conversation_id before_timestamp page limit : Nat) :
    let res := get_messages_before_timestamp db conversation_id before_timestamp page limit
    (∀ m ∈ res.data, m.created_at < before_timestamp) ∧
    res.total = (msgsBefore db conversation_id before_timestamp).length := by
  refine ⟨?_, rfl⟩
  intro m hm
  have hm2 := List.mem_of_mem_drop (List.mem_of_mem_take hm)
  rcases List.mem_map.1 hm2 with ⟨r, hr, rfl⟩
  have hr2 := List.mem_of_mem_take hr
  rw [List.mem_insertionSort] at hr2
  unfold msgsBefore at hr2
  have hcond := (List.mem_filter.1 hr2).2
  simp only [Bool.and_eq_true, beq_iff_eq, decide_eq_true_eq] at hcond
  exact hcond.2

/-- Witness for C4: conversation 100 of `dbMsgs` bounded below timestamp 60
(only the message at timestamp 55 qualifies; the count query reports 1). -/
theorem claim_C4_witness :
    (let res := get_messages_before_timestamp dbMsgs 100 60 1 20
     (∀ m ∈ res.data, m.created_at < 60) ∧
     res.total = (msgsBefore dbMsgs 100 60).length) :=
  claim_C4 dbMsgs 100 60 1 20

/-! ### Claim C2 -/

/-- A partition whose clustering keys `(message_timestamp, message_id)` are
pairwise distinct (as Cassandra's primary key guarantees) comes back from the
sorted read in strictly descending clustering order. -/
theorem msgPartition_pairwise_lt (db : DB) (cid : Nat)
    (hkeys : ((db.messages_by_conversation.filter
        (fun r => r.conversation_id == cid)).map
        (fun r => (r.message_timestamp, r.message_id))).Nodup) :
    (msgPartition db cid).Pairwise msgRowLT := by
  have hsorted : (msgPartition db cid).Pairwise msgClusterLE :=
    List.sorted_insertionSort msgClusterLE _
  have hperm : List.Perm (msgPartition db cid)
      (db.messages_by_conversation.filter (fun r => r.conversation_id == cid)) :=
    List.perm_insertionSort _ _
  have hkeys2 : ((msgPartition db cid).map
      (fun r => (r.message_timestamp, r.message_id))).Nodup :=
    ((hperm.map _).nodup_iff).2 hkeys
  have hne : (msgPartition db cid).Pairwise
      (fun a b => (a.message_timestamp, a.message_id) ≠ (b.message_timestamp, b.message_id)) :=
    List.pairwise_map.mp hkeys2
  refine List.Pairwise.imp₂ ?_ hsorted hne
  intro a b hle hne2
  have hcomp : ¬(a.message_timestamp = b.message_timestamp ∧ a.message_id = b.message_id) :=
    fun hc => hne2 (by rw [hc.1, hc.2])
  unfold msgClusterLE at hle
  unfold msgRowLT
  omega

/-- Converting rows to records preserves the strict clustering order. -/
theorem pairwise_msgRecLT_of_rows {l : List MsgRow} (h : l.Pairwise msgRowLT) :
    (l.map msgRowToRecord).Pairwise msgRecLT := by
  rw [List.pairwise_map]
  refine h.imp ?_
  intro a b hab
  unfold msgRowLT at hab
  unfold msgRecLT msgRowToRecord
  exact hab

/-- C2: over a partition with pairwise-distinct clustering keys,
`get_conversation_messages` returns exactly the page window
`[(page-1)*limit, page*limit)` of the first `page * limit` rows taken in
newest-first clustering order, its `total` is the count of rows actually
fetched (hence capped by `page * limit`, not the true partition size), its
data is strictly ordered by timestamp descending with ties by message id
ascending, and page 1 with limit L returns `min N L` items. -/
theorem claim_C2 (db : DB) (conversation_id page limit : Nat)
    (hkeys : ((db.messages_by_conversation.filter
        (fun r => r.conversation_id == conversation_id)).map
        (fun r => (r.message_timestamp, r.message_id))).Nodup) :
    let res := get_conversation_messages db conversation_id page limit
    let fetched := (msgPartition db conversation_id).take (page * limit)
    res.data = ((fetched.map msgRowToRecord).drop ((page - 1) * limit)).take limit ∧
    res.total = fetched.length ∧
    res.total ≤ page * limit ∧
    res.data.Pairwise msgRecLT ∧
    (page = 1 →
      res.data.length = min (msgPartition db conversation_id).length limit) := by
  refine ⟨rfl, ?_, ?_, ?_, ?_⟩
  · exact List.length_map _ _
  · show (((msgPartition db conversation_id).take (page * limit)).map
      msgRowToRecord).length ≤ page * limit
    rw [List.length_map, List.length_take]
    omega
  · have hrows := msgPartition_pairwise_lt db conversation_id hkeys
    have h1 : ((msgPartition db conversation_id).take (page * limit)).Pairwise msgRowLT :=
      hrows.sublist (List.take_sublist _ _)
    have h2 := pairwise_msgRecLT_of_rows h1
    exact (h2.sublist (List.drop_sublist _ _)).sublist (List.take_sublist _ _)
  · intro hp
    subst hp
    show (((((msgPartition db conversation_id).take (1 * limit)).map
      msgRowToRecord).drop ((1 - 1) * limit)).take limit).length =
        min (msgPartition db conversation_id).length limit
    rw [List.length_take, List.length_drop, List.length_map, List.length_take]
    omega

/-- Witness for C2: conversation 100 of `dbMsgs` (three rows, one timestamp
tie), page 1, limit 2. -/
theorem claim_C2_witness :
    ((dbMsgs.messages_by_conversation.filter
        (fun r => r.conversation_id == 100)).map
        (fun r => (r.message_timestamp, r.message_id))).Nodup ∧
    (let res := get_conversation_messages dbMsgs 100 1 2
     let fetched := (msgPartition dbMsgs 100).take (1 * 2)
     res.data = ((fetched.map msgRowToRecord).drop ((1 - 1) * 2)).take 2 ∧
     res.total = fetched.length ∧
     res.total ≤ 1 * 2 ∧
     res.data.Pairwise msgRecLT ∧
     (1 = 1 → res.data.length = min (msgPartition dbMsgs 100).length 2)) :=
  ⟨by decide, claim_C2 dbMsgs 100 1 2 (by decide)⟩

/-! ### Claims C5 and C1: two sequential create-or-get calls -/

theorem findMatchingConversation_eq_none {db : DB} {m M : Nat} {l : List ConvByUserRow} :
    findMatchingConversation db m M l = none ↔
      ∀ row ∈ l, ¬ rowMatches db m M row = true := by
  unfold findMatchingConversation
  rw [Option.map_eq_none']
  exact List.find?_eq_none

theorem findMatchingConversation_eq_some {db : DB} {m M cid : Nat} {l : List ConvByUserRow}
    (h : findMatchingConversation db m M l = some cid) :
    ∃ row, row ∈ l ∧ rowMatches db m M row = true ∧ row.conversation_id = cid := by
  unfold findMatchingConversation at h
  cases hf : l.find? (rowMatches db m M) with
  | none =>
    rw [hf] at h
    exact absurd h (by simp)
  | some r =>
    rw [hf] at h
    simp only [Option.map_some'] at h
    exact ⟨r, List.mem_of_find?_eq_some hf, List.find?_some hf, Option.some.inj h⟩

theorem rowMatches_decomp {db : DB} {m M : Nat} {row : ConvByUserRow}
    (h : rowMatches db m M row = true) :
    ∃ p rest, participantsLookup db row.conversation_id = p :: rest ∧
      ((p.user1_id = m ∧ p.user2_id = M) ∨ (p.user1_id = M ∧ p.user2_id = m)) := by
  unfold rowMatches at h
  cases hl : participantsLookup db row.conversation_id with
  | nil =>
    rw [hl] at h
    exact absurd h (by simp)
  | cons p rest =>
    rw [hl] at h
    simp only [Bool.or_eq_true, Bool.and_eq_true, beq_iff_eq] at h
    exact ⟨p, rest, rfl, h⟩

theorem rowMatches_of_lookup {db : DB} {m M : Nat} {row : ConvByUserRow} {p : ParticipantRow}
    {rest : List ParticipantRow}
    (hl : participantsLookup db row.conversation_id = p :: rest)
    (hp : (p.user1_id = m ∧ p.user2_id = M) ∨ (p.user1_id = M ∧ p.user2_id = m)) :
    rowMatches db m M row = true := by
  unfold rowMatches
  rw [hl]
  simp only [Bool.or_eq_true, Bool.and_eq_true, beq_iff_eq]
  exact hp

theorem rowMatches_congr {db1 db2 : DB} {m M : Nat} {row : ConvByUserRow}
    (h : participantsLookup db1 row.conversation_id =
      participantsLookup db2 row.conversation_id) :
    rowMatches db1 m M row = rowMatches db2 m M row := by
  unfold rowMatches
  rw [h]

theorem createdState_lookup_new (db : DB) (n1 t1 m M : Nat) :
    participantsLookup (createdState db n1 t1 m M) n1 = [⟨n1, m, M, t1⟩] := by
  rw [participantsLookup_eq]
  show (insertParticipant ⟨n1, m, M, t1⟩ db.conversation_participants).filter
    (fun r => r.conversation_id == n1) = [⟨n1, m, M, t1⟩]
  rw [filter_insertParticipant]
  exact if_pos rfl

theorem createdState_lookup_other (db : DB) (n1 t1 m M cid : Nat) (hc : cid ≠ n1) :
    participantsLookup (createdState db n1 t1 m M) cid = participantsLookup db cid := by
  rw [participantsLookup_eq, participantsLookup_eq]
  show (insertParticipant ⟨n1, m, M, t1⟩ db.conversation_participants).filter
    (fun r => r.conversation_id == cid) =
    db.conversation_participants.filter (fun r => r.conversation_id == cid)
  rw [filter_insertParticipant]
  exact if_neg (fun e => hc e.symm)

theorem minRow_mem_createdState (db : DB) (n1 t1 m M : Nat) :
    (⟨m, t1, n1, M, none⟩ : ConvByUserRow) ∈
      (createdState db n1 t1 m M).conversations_by_user := by
  by_cases hmM : m = M
  · subst hmM
    exact self_mem_insertConv _ _
  · exact mem_insertConv_of_mem _ (self_mem_insertConv _ _)
      (by simp [ConvByUserRow.samePK, hmM])

/-- After the create branch has written its three rows, rescanning the
smaller user's partition finds exactly the fresh conversation: the fresh
summary row matches, and any matching row carries the fresh id (rows carried
over from the pre-create state still fail the pair check). -/
theorem findMatching_after_create (db : DB) (n1 t1 m M : Nat)
    (hall : ∀ row ∈ convPartition db m, ¬ rowMatches db m M row = true) :
    findMatchingConversation (createdState db n1 t1 m M) m M
      (convPartition (createdState db n1 t1 m M) m) = some n1 := by
  have hmatch_new : rowMatches (createdState db n1 t1 m M) m M ⟨m, t1, n1, M, none⟩ = true :=
    rowMatches_of_lookup (createdState_lookup_new db n1 t1 m M) (Or.inl ⟨rfl, rfl⟩)
  have hminpart : (⟨m, t1, n1, M, none⟩ : ConvByUserRow) ∈
      convPartition (createdState db n1 t1 m M) m :=
    mem_convPartition.2 ⟨minRow_mem_createdState db n1 t1 m M, rfl⟩
  cases hf2 : (convPartition (createdState db n1 t1 m M) m).find?
      (rowMatches (createdState db n1 t1 m M) m M) with
  | none =>
    exact absurd hmatch_new (List.find?_eq_none.1 hf2 _ hminpart)
  | some r0 =>
    have hr0match := List.find?_some hf2
    have hr0mem := List.mem_of_find?_eq_some hf2
    have hr0cid : r0.conversation_id = n1 := by
      by_contra hc
      have hlr := createdState_lookup_other db n1 t1 m M r0.conversation_id hc
      have hmatch_db : rowMatches db m M r0 = true := by
        rw [← rowMatches_congr hlr]
        exact hr0match
      have hr0 := mem_convPartition.1 hr0mem
      rcases mem_of_mem_insertConv hr0.1 with h | h
      · subst h
        exact hc rfl
      · rcases mem_of_mem_insertConv h with h2 | h2
        · subst h2
          exact hc rfl
        · exact hall r0 (mem_convPartition.2 ⟨h2, hr0.2⟩) hmatch_db
    unfold findMatchingConversation
    rw [hf2]
    simp [hr0cid]

/-- Two sequential `create_or_get_conversation` calls for the same unordered
pair resolve to the same conversation id: the second call always takes the
found branch on the state left by the first, both calls return `some` record
with the same id, the second call leaves the state unchanged, and the head of
the participants lookup for that id in the final state is either the
canonical row written by the create branch or a pre-existing row matching the
pair in either order. -/
theorem cog_pair_stable (n1 t1 n2 t2 a b c d : Nat) (db : DB)
    (hmin : min c d = min a b) (hmax : max c d = max a b) :
    ∃ cid rec1 rec2 p,
      (create_or_get_conversation n1 t1 a b db).1 = some rec1 ∧
      (create_or_get_conversation n2 t2 c d
        (create_or_get_conversation n1 t1 a b db).2).1 = some rec2 ∧
      rec1.id = cid ∧ rec2.id = cid ∧
      (create_or_get_conversation n2 t2 c d
        (create_or_get_conversation n1 t1 a b db).2).2 =
        (create_or_get_conversation n1 t1 a b db).2 ∧
      (participantsLookup (create_or_get_conversation n1 t1 a b db).2 cid).head? = some p ∧
      ((p.user1_id = min a b ∧ p.user2_id = max a b) ∨
        (p ∈ db.conversation_participants ∧
          ((p.user1_id = min a b ∧ p.user2_id = max a b) ∨
            (p.user1_id = max a b ∧ p.user2_id = min a b)))) := by
  cases hfind : findMatchingConversation db (min a b) (max a b)
      (convPartition db (min a b)) with
  | some cid =>
    obtain ⟨row, hrowmem, hrowmatch, hrowcid⟩ := findMatchingConversation_eq_some hfind
    obtain ⟨p, rest, hlook, hpmatch⟩ := rowMatches_decomp hrowmatch
    rw [hrowcid] at hlook
    obtain ⟨rec, hrec, hrecid, hru1, hru2⟩ := get_conversation_eq_some hlook
    have hres1 : create_or_get_conversation n1 t1 a b db = (get_conversation db cid, db) := by
      simp only [create_or_get_conversation, hfind]
    have hst1 : (create_or_get_conversation n1 t1 a b db).2 = db := by
      rw [hres1]
    have hres2 : create_or_get_conversation n2 t2 c d db = (get_conversation db cid, db) := by
      simp only [create_or_get_conversation, hmin, hmax, hfind]
    refine ⟨cid, rec, rec, p, ?_, ?_, hrecid, hrecid, ?_, ?_, ?_⟩
    · rw [hres1]
      exact hrec
    · rw [hst1, hres2]
      exact hrec
    · rw [hst1, hres2]
    · rw [hst1]
      show (participantsLookup db cid).head? = some p
      rw [hlook]
      rfl
    · exact Or.inr ⟨(head_participantsLookup hlook).1, hpmatch⟩
  | none =>
    have hall := findMatchingConversation_eq_none.1 hfind
    have hres1 : create_or_get_conversation n1 t1 a b db =
        (some ⟨n1, min a b, max a b, t1, none⟩,
          createdState db n1 t1 (min a b) (max a b)) := by
      simp only [create_or_get_conversation, hfind, createdState]
    have hst1 : (create_or_get_conversation n1 t1 a b db).2 =
        createdState db n1 t1 (min a b) (max a b) := by
      rw [hres1]
    have hfind2 := findMatching_after_create db n1 t1 (min a b) (max a b) hall
    have hres2 : create_or_get_conversation n2 t2 c d
        (createdState db n1 t1 (min a b) (max a b)) =
        (get_conversation (createdState db n1 t1 (min a b) (max a b)) n1,
          createdState db n1 t1 (min a b) (max a b)) := by
      simp only [create_or_get_conversation, hmin, hmax, hfind2]
    obtain ⟨rec2, hrec2, hrec2id, hr21, hr22⟩ :=
      get_conversation_eq_some (createdState_lookup_new db n1 t1 (min a b) (max a b))
    refine ⟨n1, ⟨n1, min a b, max a b, t1, none⟩, rec2, ⟨n1, min a b, max a b, t1⟩,
      ?_, ?_, rfl, hrec2id, ?_, ?_, Or.inl ⟨rfl, rfl⟩⟩
    · rw [hres1]
    · rw [hst1, hres2]
      exact hrec2
    · rw [hst1, hres2]
    · rw [hst1, createdState_lookup_new]
      rfl

/-- C5: two sequential `create_or_get_conversation` calls for the same pair,
from any starting state and with no concurrent callers, return records with
the same conversation id, and the second call finds the conversation left by
the first instead of creating a new one (it leaves the state unchanged). -/
theorem claim_C5 (n1 t1 n2 t2 a b : Nat) (db : DB) :
    ∃ cid rec1 rec2,
      (create_or_get_conversation n1 t1 a b db).1 = some rec1 ∧
      (create_or_get_conversation n2 t2 a b
        (create_or_get_conversation n1 t1 a b db).2).1 = some rec2 ∧
      rec1.id = cid ∧ rec2.id = cid ∧
      (create_or_get_conversation n2 t2 a b
        (create_or_get_conversation n1 t1 a b db).2).2 =
        (create_or_get_conversation n1 t1 a b db).2 := by
  obtain ⟨cid, rec1, rec2, p, h1, h2, h3, h4, h5, _, _⟩ :=
    cog_pair_stable n1 t1 n2 t2 a b a b db rfl rfl
  exact ⟨cid, rec1, rec2, h1, h2, h3, h4, h5⟩

/-- C1: for distinct users, sequential `create_or_get_conversation(a, b)` then
`create_or_get_conversation(b, a)` (no concurrent callers) return the same
conversation id, and — on any state whose participants rows are canonically
ordered, the invariant every creation preserves — the stored
`conversation_participants` row of that conversation satisfies
`user1_id < user2_id`. -/
theorem claim_C1 (n1 t1 n2 t2 a b : Nat) (db : DB) (hab : a ≠ b)
    (hcanon : ParticipantsCanonical db) :
    ∃ cid rec1 rec2 p,
      (create_or_get_conversation n1 t1 a b db).1 = some rec1 ∧
      (create_or_get_conversation n2 t2 b a
        (create_or_get_conversation n1 t1 a b db).2).1 = some rec2 ∧
      rec1.id = cid ∧ rec2.id = cid ∧
      (participantsLookup (create_or_get_conversation n1 t1 a b db).2 cid).head? = some p ∧
      p.user1_id < p.user2_id := by
  obtain ⟨cid, rec1, rec2, p, h1, h2, h3, h4, _, h6, h7⟩ :=
    cog_pair_stable n1 t1 n2 t2 a b b a db (Nat.min_comm b a) (Nat.max_comm b a)
  refine ⟨cid, rec1, rec2, p, h1, h2, h3, h4, h6, ?_⟩
  have hmM : min a b < max a b := by
    rcases Nat.lt_or_ge a b with h | h
    · rw [Nat.min_eq_left (Nat.le_of_lt h), Nat.max_eq_right (Nat.le_of_lt h)]
      exact h
    · have hba : b < a := Nat.lt_of_le_of_ne h (fun e => hab e.symm)
      rw [Nat.min_eq_right (Nat.le_of_lt hba), Nat.max_eq_left (Nat.le_of_lt hba)]
      exact hba
  rcases h7 with ⟨e1, e2⟩ | ⟨hmem, hor⟩
  · rw [e1, e2]
    exact hmM
  · have hle := hcanon p hmem
    rcases hor with ⟨e1, e2⟩ | ⟨e1, e2⟩
    · rw [e1, e2]
      exact hmM
    · rw [e1, e2] at hle
      omega

/-- Witness for C1: users 5 and 9 on the empty keyspace. -/
theorem claim_C1_witness :
    (5 : Nat) ≠ 9 ∧ ParticipantsCanonical dbEmpty ∧
    (∃ cid rec1 rec2 p,
      (create_or_get_conversation 100 7 5 9 dbEmpty).1 = some rec1 ∧
      (create_or_get_conversation 200 8 9 5
        (create_or_get_conversation 100 7 5 9 dbEmpty).2).1 = some rec2 ∧
      rec1.id = cid ∧ rec2.id = cid ∧
      (participantsLookup (create_or_get_conversation 100 7 5 9 dbEmpty).2 cid).head? =
        some p ∧
      p.user1_id < p.user2_id) :=
  ⟨by decide, fun p hp => absurd hp (List.not_mem_nil p),
   claim_C1 100 7 200 8 5 9 dbEmpty (by decide) (fun p hp => absurd hp (List.not_mem_nil p))⟩

/-- Witness for C5: resolving the pair (5, 9) twice on the empty keyspace. -/
theorem claim_C5_witness :
    ∃ cid rec1 rec2,
      (create_or_get_conversation 100 7 5 9 dbEmpty).1 = some rec1 ∧
      (create_or_get_conversation 200 8 5 9
        (create_or_get_conversation 100 7 5 9 dbEmpty).2).1 = some rec2 ∧
      rec1.id = cid ∧ rec2.id = cid ∧
      (create_or_get_conversation 200 8 5 9
        (create_or_get_conversation 100 7 5 9 dbEmpty).2).2 =
        (create_or_get_conversation 100 7 5 9 dbEmpty).2 :=
  claim_C5 100 7 200 8 5 9 dbEmpty

/-- Witness for C9: message 7 at timestamp 60 from user 1 to user 2 in
conversation 100 on the empty keyspace. -/
theorem claim_C9_witness :
    (let res := create_message 7 60 1 2 "hi" 100 dbEmpty
     let msgRow : MsgRow := ⟨100, 60, 7, 1, 2, "hi"⟩
     let senderRow : ConvByUserRow := ⟨1, 60, 100, 2, some "hi"⟩
     let receiverRow : ConvByUserRow := ⟨2, 60, 100, 1, some "hi"⟩
     msgRow ∈ res.2.messages_by_conversation ∧
     (∀ x ∈ res.2.messages_by_conversation,
       x = msgRow ∨ x ∈ dbEmpty.messages_by_conversation) ∧
     senderRow ∈ res.2.conversations_by_user ∧
     receiverRow ∈ res.2.conversations_by_user ∧
     (∀ x ∈ res.2.conversations_by_user,
       x = senderRow ∨ x = receiverRow ∨ x ∈ dbEmpty.conversations_by_user) ∧
     res.2.conversation_participants = dbEmpty.conversation_participants ∧
     res.1 = ⟨7, 100, 1, 2, "hi", 60⟩) :=
  claim_C9 7 60 1 2 "hi" 100 dbEmpty

/-! ### Claim C7 -/

/-- Failure oracle raising "boom" on the second store write (index 1). -/
def failAt1 : Nat → Option String := fun k => if k = 1 then some "boom" else none

/-- C7: neither `create_message` nor `create_or_get_conversation` catches
query failures.  Under a failure oracle for their store writes, the first
failing write propagates its error value unchanged to the caller, no later
write executes, and the resulting state is exactly the prefix of writes
executed before the failure — there is no compensating undo.  With no
failure, the oracle-instrumented runs coincide with the plain operations, and
the plain operations are exactly the sequential application of their write
lists.  The found branch of `create_or_get_conversation` performs no writes. -/
theorem claim_C7 (fail : Nat → Option String) (mid ts s r : Nat) (c : String)
    (cid n t u1 u2 : Nat) (db : DB) :
    let mws := createMessageWrites mid ts s r c cid
    let cws := createConversationWrites n t u1 u2
    (∀ e, fail 0 = some e →
      create_message_with_failures fail mid ts s r c cid db =
        (Except.error e, applyWrites (mws.take 0) db)) ∧
    (∀ e, fail 0 = none → fail 1 = some e →
      create_message_with_failures fail mid ts s r c cid db =
        (Except.error e, applyWrites (mws.take 1) db)) ∧
    (∀ e, fail 0 = none → fail 1 = none → fail 2 = some e →
      create_message_with_failures fail mid ts s r c cid db =
        (Except.error e, applyWrites (mws.take 2) db)) ∧
    (fail 0 = none → fail 1 = none → fail 2 = none →
      create_message_with_failures fail mid ts s r c cid db =
        (Except.ok (create_message mid ts s r c cid db).1,
          (create_message mid ts s r c cid db).2) ∧
      applyWrites mws db = (create_message mid ts s r c cid db).2) ∧
    (∀ cid2, findMatchingConversation db (min u1 u2) (max u1 u2)
        (convPartition db (min u1 u2)) = some cid2 →
      create_or_get_conversation_with_failures fail n t u1 u2 db =
        (Except.ok (get_conversation db cid2), db)) ∧
    (findMatchingConversation db (min u1 u2) (max u1 u2)
        (convPartition db (min u1 u2)) = none →
      (∀ e, fail 0 = some e →
        create_or_get_conversation_with_failures fail n t u1 u2 db =
          (Except.error e, applyWrites (cws.take 0) db)) ∧
      (∀ e, fail 0 = none → fail 1 = some e →
        create_or_get_conversation_with_failures fail n t u1 u2 db =
          (Except.error e, applyWrites (cws.take 1) db)) ∧
      (∀ e, fail 0 = none → fail 1 = none → fail 2 = some e →
        create_or_get_conversation_with_failures fail n t u1 u2 db =
          (Except.error e, applyWrites (cws.take 2) db)) ∧
      (fail 0 = none → fail 1 = none → fail 2 = none →
        create_or_get_conversation_with_failures fail n t u1 u2 db =
          (Except.ok (create_or_get_conversation n t u1 u2 db).1,
            (create_or_get_conversation n t u1 u2 db).2) ∧
        applyWrites cws db = (create_or_get_conversation n t u1 u2 db).2)) := by
  refine ⟨?_, ?_, ?_, ?_, ?_, ?_⟩
  · intro e h0
    simp only [create_message_with_failures, h0, createMessageWrites, applyWrites,
      List.take, List.foldl]
  · intro e h0 h1
    simp only [create_message_with_failures, h0, h1, createMessageWrites, applyWrites,
      List.take, List.foldl]
  · intro e h0 h1 h2
    simp only [create_message_with_failures, h0, h1, h2, createMessageWrites, applyWrites,
      List.take, List.foldl]
  · intro h0 h1 h2
    constructor
    · simp only [create_message_with_failures, h0, h1, h2, create_message]
    · simp only [createMessageWrites, applyWrites, List.foldl, create_message]
  · intro cid2 hf
    simp only [create_or_get_conversation_with_failures, hf]
  · intro hf
    refine ⟨?_, ?_, ?_, ?_⟩
    · intro e h0
      simp only [create_or_get_conversation_with_failures, hf, h0,
        createConversationWrites, applyWrites, List.take, List.foldl]
    · intro e h0 h1
      simp only [create_or_get_conversation_with_failures, hf, h0, h1,
        createConversationWrites, applyWrites, List.take, List.foldl]
    · intro e h0 h1 h2
      simp only [create_or_get_conversation_with_failures, hf, h0, h1, h2,
        createConversationWrites, applyWrites, List.take, List.foldl]
    · intro h0 h1 h2
      constructor
      · simp only [create_or_get_conversation_with_failures, hf, h0, h1, h2,
          create_or_get_conversation]
      · simp only [createConversationWrites, applyWrites, List.foldl,
          create_or_get_conversation, hf]

/-- Witness for C7: with the oracle failing on the second write, both
multi-write operations stop after their first write with the error "boom"
propagated unchanged, on the empty keyspace (where the pair (2, 1) takes the
create branch). -/
theorem claim_C7_witness :
    create_message_with_failures failAt1 7 60 1 2 "hi" 100 dbEmpty =
      (Except.error "boom",
        applyWrites ((createMessageWrites 7 60 1 2 "hi" 100).take 1) dbEmpty) ∧
    create_or_get_conversation_with_failures failAt1 100 5 2 1 dbEmpty =
      (Except.error "boom",
        applyWrites ((createConversationWrites 100 5 2 1).take 1) dbEmpty) :=
  ⟨(claim_C7 failAt1 7 60 1 2 "hi" 100 100 5 2 1 dbEmpty).2.1 "boom" rfl rfl,
   ((claim_C7 failAt1 7 60 1 2 "hi" 100 100 5 2 1 dbEmpty).2.2.2.2.2
      (by decide)).2.1 "boom" rfl rfl⟩

end Messenger
